import Mathlib

/-!
Verification of the Oraxel payment-gated job lifecycle engine.

Shallow embedding of the TypeScript sources:
  src/src/services/JobService.ts        (JobStore)
  src/src/services/FacilitatorService.ts (PaymentGate)
  src/src/controllers/JobController.ts  (LifecycleController)
together with the in-memory cache used by the controller.

Modelling conventions:
  * JS `Map<string, OracleJob>` becomes an association list `List (Nat × OracleJob)`
    with JS Map semantics: `set` on an existing key replaces the entry in place
    (preserving insertion order), `set` on a new key appends.
  * `nanoid()` id allocation is modelled as a fresh-id counter `nextId` (a
    collision-free id allocator), so ids are `Nat`.
  * `new Date()` timestamps are modelled by a logical clock on the store state:
    each Date construction reads the clock and advances it.
  * JS dynamic values appearing in `parameters` are modelled by `JsPrim`
    (number / string / any other value); an absent key is `none`.
  * Each controller handler is translated as an atomic state transformer for the
    sequential semantics; the Fetch handler is additionally split at its
    `await facilitatorService.verifyPayment` suspension point into phase
    functions, so that interleavings of concurrent requests (which in Node can
    switch between requests exactly at awaits) can be expressed as compositions
    of the phases.
  * The external payment verifier verdict is an explicit input of the Fetch
    operation (in demo mode the code always produces a verified verdict; in
    live mode the facilitator decides).
-/

/-- Job lifecycle states, from src/src/types (JobStatus). -/
inductive JobStatus
  | pending_payment
  | payment_confirmed
  | query_in_progress
  | completed
  | failed
deriving DecidableEq, Repr

/-- Job kinds, from src/src/types (JobType). -/
inductive JobType
  | random
  | price
  | webhook
deriving DecidableEq, Repr

/-- A JS primitive value stored in a parameters object. -/
inductive JsPrim
  | num (n : Int)
  | str (s : String)
  | otherVal
deriving DecidableEq, Repr

/-- A JS parameters object: an association list of fields. -/
structure Params where
  fields : List (String × JsPrim)
deriving DecidableEq, Repr

/-- Field lookup on a parameters object (absent key gives none). -/
def Params.get (p : Params) (k : String) : Option JsPrim :=
  (p.fields.find? (fun e => e.1 == k)).map (fun e => e.2)

/-- A terminal job result: the oracle payload on success, or the structured
failure object written by the failure path. -/
inductive JobResult
  | success (payload : String)
  | failure (error : String)
deriving DecidableEq, Repr

/-- The OracleJob entity, from src/src/types. The source has no version field. -/
structure OracleJob where
  id : Nat
  type : JobType
  parameters : Params
  status : JobStatus
  result : Option JobResult
  createdAt : Nat
  updatedAt : Nat
deriving DecidableEq, Repr

/-- Association-list lookup with JS Map semantics (first matching key). -/
def getA {β : Type} : List (Nat × β) → Nat → Option β
  | [], _ => none
  | e :: rest, id => if e.1 = id then some e.2 else getA rest id

/-- Association-list store with JS Map semantics: replace the existing entry in
place, else append at the end (insertion order preserved). -/
def setA {β : Type} : List (Nat × β) → Nat → β → List (Nat × β)
  | [], id, v => [(id, v)]
  | e :: rest, id, v => if e.1 = id then (id, v) :: rest else e :: setA rest id v

/-- Association-list delete (JS Map.delete / cache del). -/
def delA {β : Type} (l : List (Nat × β)) (id : Nat) : List (Nat × β) :=
  l.filter (fun e => !(e.1 == id))

/-- State of JobService: the jobs Map, the fresh-id allocator modelling nanoid,
and the logical clock modelling Date. -/
structure JobServiceState where
  jobs : List (Nat × OracleJob)
  nextId : Nat
  clock : Nat
deriving DecidableEq, Repr

namespace JobService

/-- The job value built by JobService.createJob: the fresh id, the given kind
and parameters, state pending_payment, no result, and createdAt and updatedAt
both equal to the single Date value taken at creation. -/
def newJobOf (st : JobServiceState) (ty : JobType) (p : Params) : OracleJob :=
  { id := st.nextId
    type := ty
    parameters := p
    status := .pending_payment
    result := none
    createdAt := st.clock
    updatedAt := st.clock }

/-- JobService.createJob: allocates an id, stores a pending_payment job whose
createdAt and updatedAt are the same Date value, returns it. -/
def createJob (st : JobServiceState) (ty : JobType) (p : Params) :
    OracleJob × JobServiceState :=
  let job := newJobOf st ty p
  (job, { jobs := setA st.jobs job.id job, nextId := st.nextId + 1, clock := st.clock + 1 })

/-- JobService.getJob. -/
def getJob (st : JobServiceState) (id : Nat) : Option OracleJob :=
  getA st.jobs id

/-- A partial update as passed to JobService.updateJob: only the fields the
controller ever writes (status and result); an absent field keeps the old
value, exactly like the JS object spread. -/
structure JobUpdate where
  status : Option JobStatus := none
  result : Option JobResult := none
deriving DecidableEq, Repr

/-- The JS object spread of updateJob: fields present in the partial update
override, updatedAt is refreshed from the new Date value. -/
def mergeJob (job : OracleJob) (u : JobUpdate) (clk : Nat) : OracleJob :=
  { job with
    status := u.status.getD job.status
    result := match u.result with
              | some r => some r
              | none => job.result
    updatedAt := clk }

/-- JobService.updateJob: unconditional merge. Looks the job up; if absent
returns null and leaves the store untouched; otherwise overwrites the given
fields, refreshes updatedAt from the clock, stores and returns the result.
There is no expected-state or version precondition anywhere in the source. -/
def updateJob (st : JobServiceState) (id : Nat) (u : JobUpdate) :
    Option OracleJob × JobServiceState :=
  match getJob st id with
  | none => (none, st)
  | some job =>
      let updated : OracleJob := mergeJob job u st.clock
      (some updated, { st with jobs := setA st.jobs id updated, clock := st.clock + 1 })

/-- JobService.getAllJobs: the bare array of all jobs in Map insertion order.
The source signature takes no arguments: no limit, offset or filters. -/
def getAllJobs (st : JobServiceState) : List OracleJob :=
  st.jobs.map (fun e => e.2)

end JobService

/-- State of the cache service: jobId to (snapshot, ttl) entries. Time-based
expiry is not modelled (no claim depends on the ttl), but the stored ttl is
kept so that the set call site is faithful. -/
structure CacheState where
  entries : List (Nat × (OracleJob × Nat))
deriving DecidableEq, Repr

namespace CacheState

def get (c : CacheState) (id : Nat) : Option OracleJob :=
  (getA c.entries id).map (fun e => e.1)

def set (c : CacheState) (id : Nat) (j : OracleJob) (ttl : Nat) : CacheState :=
  ⟨setA c.entries id (j, ttl)⟩

def del (c : CacheState) (id : Nat) : CacheState :=
  ⟨delA c.entries id⟩

end CacheState

/-- Configuration of the facilitator (FACILITATOR_URL / FACILITATOR_NAME
environment), consumed by FacilitatorService.getPaymentInstructions. -/
structure FacilitatorConfig where
  facUrl : Option String
  facName : Option String
deriving DecidableEq, Repr

/-- The facilitator descriptor optionally embedded in payment instructions. -/
structure FacilitatorDesc where
  url : String
  name : String
deriving DecidableEq, Repr

/-- Payment instructions carried by a 402 response
(FacilitatorService.getPaymentInstructions with its default arguments:
amount 0.003 SOL, methods solana; the JS number 0.003 is serialized by
amount.toString() and is modelled by its decimal literal). -/
structure PaymentInstructions where
  amount : String
  currency : String
  methods : List String
  facilitator : Option FacilitatorDesc
deriving DecidableEq, Repr

namespace FacilitatorService

/-- FacilitatorService.getPaymentInstructions at its default arguments. -/
def getPaymentInstructions (cfg : FacilitatorConfig) : PaymentInstructions :=
  { amount := "0.003"
    currency := "SOL"
    methods := ["solana"]
    facilitator := cfg.facUrl.map (fun u =>
      { url := u, name := cfg.facName.getD "x402 Facilitator" }) }

/-- Verdict returned by FacilitatorService.verifyPayment. In demo mode the code
synthesizes a verified verdict; in live mode the external facilitator decides;
a thrown or failed request is caught and turned into an unverified verdict with
an error message. The verdict is therefore an input of the Fetch operation. -/
structure PaymentVerificationResult where
  verified : Bool
  transactionId : Option String := none
  error : Option String := none
deriving DecidableEq, Repr

end FacilitatorService

/-- The payment request built by X402Service.createPaymentRequest in demo mode
(the live branch currently returns the same shape with another URL). -/
structure PaymentRequest where
  paymentUrl : String
  amount : String
  currency : String
deriving DecidableEq, Repr

/-- X402Service.createPaymentRequest (demo mode). -/
def createPaymentRequest (job : OracleJob) : PaymentRequest :=
  { paymentUrl := "https://x402-demo.payment.example.com/pay/" ++ toString job.id
    amount := "0.003"
    currency := "SOL" }

/-- Responses of the job endpoints. notFound is NotFoundError (404), badRequest
covers BadRequestError and ValidationError (400), created is the 201 creation
response, paymentRequired is the 402 body (err = none for the no-proof body
carrying the fixed message, err = some r for the rejected body carrying the
rejection reason), snapshot is a 200 with the serialized job (the source sends
whatever getJob returned, hence the Option). -/
inductive JobResponse
  | notFound
  | badRequest (msg : String)
  | created (jobId : Nat) (status : JobStatus) (payReq : PaymentRequest)
  | paymentRequired (payment : PaymentInstructions) (jobId : Nat) (err : Option String)
  | snapshot (job : Option OracleJob)
deriving DecidableEq, Repr

/-- Whole-system state: the job store, the cache, the list of job values handed
to QueueService.addJob (the dispatch log, in submission order), and a ghost
trace slog of every status value written to the store (including the initial
pending_payment of each created job), used only to state the visited-states
property; it never influences behavior. -/
structure Sys where
  svc : JobServiceState
  cache : CacheState
  queue : List OracleJob
  slog : List (Nat × JobStatus)
deriving DecidableEq, Repr

/-- JobService.updateJob lifted to the system state, recording any status
write in the ghost trace. -/
def Sys.update (sys : Sys) (id : Nat) (u : JobService.JobUpdate) :
    Option OracleJob × Sys :=
  let r := JobService.updateJob sys.svc id u
  (r.1,
    { sys with
      svc := r.2
      slog := match r.1, u.status with
              | some _, some s => sys.slog ++ [(id, s)]
              | _, _ => sys.slog })

/-- Kind-specific parameter validation from JobController.createJob: the if
chain over type with the JS truthiness checks (a pair or url that is absent,
not a string, or the empty string fails). Returns the thrown BadRequestError
message, or none when validation passes. -/
def validateJobParams : JobType → Params → Option String
  | .random, p =>
      match p.get "min", p.get "max" with
      | some (.num mn), some (.num mx) =>
          if mn ≥ mx then some "Random job requires valid min and max numbers where min < max"
          else none
      | _, _ => some "Random job requires valid min and max numbers where min < max"
  | .price, p =>
      match p.get "pair" with
      | some (.str s) =>
          if s = "" then some "Price job requires a pair parameter (string)" else none
      | _ => some "Price job requires a pair parameter (string)"
  | .webhook, p =>
      match p.get "url" with
      | some (.str s) =>
          if s = "" then some "Webhook job requires a url parameter (string)" else none
      | _ => some "Webhook job requires a url parameter (string)"

/-- JobController.createJob: schema validation (the type enum and
parameters-is-an-object checks of validateCreateJob are enforced by the
embedding types), kind-specific validation, then JobService.createJob and the
201 response with the payment request. A validation failure throws before any
job is created. -/
def createJobCtrl (sys : Sys) (ty : JobType) (p : Params) : JobResponse × Sys :=
  match validateJobParams ty p with
  | some msg => (.badRequest msg, sys)
  | none =>
      let r := JobService.createJob sys.svc ty p
      (.created r.1.id r.1.status (createPaymentRequest r.1),
        { sys with svc := r.2, slog := sys.slog ++ [(r.1.id, r.1.status)] })

/-- Rendering of a JobStatus into the string interpolated in the
confirmPayment conflict message. -/
def statusString : JobStatus → String
  | .pending_payment => "pending_payment"
  | .payment_confirmed => "payment_confirmed"
  | .query_in_progress => "query_in_progress"
  | .completed => "completed"
  | .failed => "failed"

/-- JobController.confirmPayment (legacy explicit path): requires the job to
exist and be pending_payment, simulates the payment confirmation (demo mode:
returns true, no state effect), performs the two unconditional status updates,
hands the snapshot read at the start of the handler to QueueService.addJob,
deletes the cache entry, re-reads and returns the job. -/
def confirmPaymentCtrl (sys : Sys) (id : Nat) : JobResponse × Sys :=
  match JobService.getJob sys.svc id with
  | none => (.notFound, sys)
  | some job =>
      if job.status ≠ .pending_payment then
        (.badRequest ("Job is not in pending_payment status. Current status: "
            ++ statusString job.status), sys)
      else
        let sys1 := (Sys.update sys id { status := some .payment_confirmed }).2
        let sys2 := (Sys.update sys1 id { status := some .query_in_progress }).2
        let sys3 := { sys2 with queue := sys2.queue ++ [job] }
        let sys4 := { sys3 with cache := sys3.cache.del id }
        (.snapshot (JobService.getJob sys4.svc id), sys4)

/-- JS truthiness of the optional x-402-payment header: absent or the empty
string is falsy. -/
def truthy : Option String → Bool
  | none => false
  | some s => !(s == "")

/-- JS short-circuit defaulting (e || fallback) applied to the optional
verification error: a missing or empty error string falls back to the fixed
message. -/
def orDefault (e : Option String) (fallback : String) : String :=
  match e with
  | some s => if s = "" then fallback else s
  | none => fallback

/-- Outcome of the part of JobController.getJob that runs before the handler
first suspends on the facilitator: the initial read of the job and the two
status/header tests that choose the path. -/
inductive FetchPhaseA
  | jobMissing
  | payRequired (jobId : Nat)
  | toVerify (snap : OracleJob)
  | readPath
deriving DecidableEq, Repr

/-- The read-and-branch phase of JobController.getJob (no mutation). -/
def fetchPhaseA (sys : Sys) (id : Nat) (hdr : Option String) : FetchPhaseA :=
  match JobService.getJob sys.svc id with
  | none => .jobMissing
  | some job =>
      if job.status = .pending_payment ∧ truthy hdr = false then
        .payRequired id
      else if truthy hdr = true ∧ job.status = .pending_payment then
        .toVerify job
      else
        .readPath

/-- The continuation of JobController.getJob after the verifyPayment await
resolves with the given verdict, carrying the job snapshot read in phase A:
on failure the annotated 402 with fresh instructions and no mutation; on
success the two unconditional status updates, QueueService.addJob with the
phase-A snapshot, the cache delete, and the 200 with the re-read job. -/
def fetchVerifyPhase (cfg : FacilitatorConfig)
    (verdict : FacilitatorService.PaymentVerificationResult)
    (sys : Sys) (id : Nat) (snap : OracleJob) : JobResponse × Sys :=
  if verdict.verified = false then
    (.paymentRequired (FacilitatorService.getPaymentInstructions cfg) id
        (some (orDefault verdict.error "Payment verification failed")), sys)
  else
    let sys1 := (Sys.update sys id { status := some .payment_confirmed }).2
    let sys2 := (Sys.update sys1 id { status := some .query_in_progress }).2
    let sys3 := { sys2 with queue := sys2.queue ++ [snap] }
    let sys4 := { sys3 with cache := sys3.cache.del id }
    (.snapshot (JobService.getJob sys4.svc id), sys4)

/-- The resolved-job read path of JobController.getJob: cache lookup, on hit
the cached snapshot, on miss a fresh store read that is cached for 60 seconds
and returned. -/
def fetchReadPhase (sys : Sys) (id : Nat) : JobResponse × Sys :=
  match sys.cache.get id with
  | some cached => (.snapshot (some cached), sys)
  | none =>
      match JobService.getJob sys.svc id with
      | none => (.notFound, sys)
      | some currentJob =>
          (.snapshot (some currentJob),
            { sys with cache := sys.cache.set id currentJob 60 })

/-- JobController.getJob (the Fetch operation) run sequentially to completion:
the composition of the phases above. -/
def getJobCtrl (cfg : FacilitatorConfig)
    (verdict : FacilitatorService.PaymentVerificationResult)
    (sys : Sys) (id : Nat) (hdr : Option String) : JobResponse × Sys :=
  match fetchPhaseA sys id hdr with
  | .jobMissing => (.notFound, sys)
  | .payRequired jid =>
      (.paymentRequired (FacilitatorService.getPaymentInstructions cfg) jid none, sys)
  | .toVerify snap => fetchVerifyPhase cfg verdict sys id snap
  | .readPath => fetchReadPhase sys id

/-- A JS value as seen by JobController.listJobs when it uses the result of
jobService.getAllJobs: either the bare array the service actually returns, or
an object carrying jobs and total fields. Member access on the array form
yields undefined (none), which is exactly the JS semantics. -/
inductive JsListValue
  | arrVal (xs : List OracleJob)
  | recVal (jobs : List OracleJob) (total : Nat)
deriving DecidableEq, Repr

def JsListValue.jobsField : JsListValue → Option (List OracleJob)
  | .arrVal _ => none
  | .recVal js _ => some js

def JsListValue.totalField : JsListValue → Option Nat
  | .arrVal _ => none
  | .recVal _ t => some t

/-- The body of the 200 response of JobController.listJobs. Fields that JS
evaluates to undefined are none (JSON serialization then drops them). -/
structure ListResponse where
  jobs : Option (List OracleJob)
  limit : Int
  offset : Int
  total : Option Nat
  hasMore : Bool
deriving DecidableEq, Repr

/-- JobController.listJobs: parses limit and offset, builds the filters object,
calls jobService.getAllJobs(limit, offset, filters) — whose implementation
takes no parameters and returns the bare array of every job — and then reads
result.jobs and result.total off that array: both are undefined. hasMore is
the JS comparison offset + limit < undefined, which is false (NaN
comparison). The filter arguments are accepted and ignored exactly as the
service ignores them. -/
def listJobsCtrl (sys : Sys) (limit offset : Int)
    (statusFilter : Option JobStatus) (typeFilter : Option JobType) : ListResponse :=
  let _ := statusFilter
  let _ := typeFilter
  let result : JsListValue := .arrVal (JobService.getAllJobs sys.svc)
  { jobs := result.jobsField
    limit := limit
    offset := offset
    total := result.totalField
    hasMore := match result.totalField with
               | none => false
               | some t => offset + limit < (t : Int) }

/-- Modelled from the spec: the QueueService worker (ExecutionDispatcher) that
consumes submitted jobs is not under src/ (only its call sites are). Following
section 4.3 of the spec, on completion of the kind-specific computation it
attempts the transition from query_in_progress to completed with the result
(or to failed with the structured error), and every state-changing write
performed as a result of dispatch completion invalidates the cache entry for
the job id. A job no longer in query_in_progress is left untouched. -/
def workerComplete (sys : Sys) (id : Nat) (outcome : JobResult) : Sys :=
  match JobService.getJob sys.svc id with
  | none => sys
  | some job =>
      if job.status = .query_in_progress then
        let target : JobStatus :=
          match outcome with
          | .success _ => .completed
          | .failure _ => .failed
        let sys1 := (Sys.update sys id { status := some target, result := some outcome }).2
        { sys1 with cache := sys1.cache.del id }
      else sys

/-- One API-level operation of the system, for sequential traces. -/
inductive Op
  | create (ty : JobType) (p : Params)
  | confirm (id : Nat)
  | fetch (cfg : FacilitatorConfig)
      (verdict : FacilitatorService.PaymentVerificationResult)
      (id : Nat) (hdr : Option String)
  | listQuery (limit offset : Int)
      (statusFilter : Option JobStatus) (typeFilter : Option JobType)
  | complete (id : Nat) (outcome : JobResult)

/-- State effect of one operation (listJobs performs no mutation). -/
def applyOp (sys : Sys) : Op → Sys
  | .create ty p => (createJobCtrl sys ty p).2
  | .confirm id => (confirmPaymentCtrl sys id).2
  | .fetch cfg v id hdr => (getJobCtrl cfg v sys id hdr).2
  | .listQuery _ _ _ _ => sys
  | .complete id outcome => workerComplete sys id outcome

/-- Sequential execution of a list of operations. -/
def runOps (sys : Sys) : List Op → Sys
  | [] => sys
  | op :: rest => runOps (applyOp sys op) rest

/-- The empty initial system. -/
def initSys : Sys :=
  { svc := { jobs := [], nextId := 0, clock := 0 }
    cache := ⟨[]⟩
    queue := []
    slog := [] }

/-- Restriction of a ghost status-write trace to one job id. -/
def traceFilter (l : List (Nat × JobStatus)) (id : Nat) : List JobStatus :=
  (l.filter (fun e => e.1 == id)).map (fun e => e.2)

/-- The sequence of status values a given job has held so far, in order. -/
def traceOf (sys : Sys) (id : Nat) : List JobStatus :=
  traceFilter sys.slog id

/-- The sequence of status values a given job has held, in order, over a
sequential trace (read off the ghost write trace). -/
def statusTrace (ops : List Op) (id : Nat) : List JobStatus :=
  traceOf (runOps initSys ops) id

/-- Immediate-successor relation of the lifecycle chain: pending_payment to
payment_confirmed to query_in_progress to completed or failed; the terminal
states have no successor. -/
def succStatus : JobStatus → JobStatus → Bool
  | .pending_payment, .payment_confirmed => true
  | .payment_confirmed, .query_in_progress => true
  | .query_in_progress, .completed => true
  | .query_in_progress, .failed => true
  | _, _ => false

/-- The job ids returned by createJob over a trace (read off the 201 response
of each creation). -/
def createdIds (sys : Sys) : List Op → List Nat
  | [] => []
  | .create ty p :: rest =>
      (match (createJobCtrl sys ty p).1 with
       | .created jid _ _ => [jid]
       | _ => []) ++ createdIds (applyOp sys (.create ty p)) rest
  | op :: rest => createdIds (applyOp sys op) rest

/-- Validity condition the spec states for random creation, written from the
spec's words independently of the controller's if chain: min and max are
numbers with min strictly below max. -/
def specRandomValid (p : Params) : Bool :=
  match p.get "min", p.get "max" with
  | some (.num mn), some (.num mx) => decide (mn < mx)
  | _, _ => false

/-- The condition the code actually enforces for webhook creation: a url field
that is a non-empty string (JS truthiness plus the typeof check). -/
def webhookParamOK (p : Params) : Bool :=
  match p.get "url" with
  | some (.str s) => !(s == "")
  | _ => false

/-- Modelled from the spec: the spec demands that webhook creation validate "a
syntactically valid target URL", a check absent from the source. This is a
minimal necessary condition every URL grammar imposes (non-empty, a scheme
separated by ://, no space characters); it is used only to interpret the
claim, and the counterexample string fails any reasonable grammar. -/
def urlSyntaxOK (s : String) : Bool :=
  (!(s == "")) && (!(s.toList.contains ' ')) &&
    decide ((':' :: '/' :: '/' :: []) <:+: s.toList)

/-- A facilitator configuration with no facilitator URL (the demo default). -/
def demoCfg : FacilitatorConfig := ⟨none, none⟩

/-- A verified verdict, as demo mode always synthesizes. -/
def okVerdict : FacilitatorService.PaymentVerificationResult :=
  { verified := true, transactionId := some "demo-tx-0" }

/-- An unverified verdict with a rejection reason. -/
def badVerdict : FacilitatorService.PaymentVerificationResult :=
  { verified := false, error := some "Invalid payment" }

/-- Valid random-job parameters (the spec's own example). -/
def pRandom : Params := ⟨[("min", .num 1), ("max", .num 402)]⟩

/-- Invalid random-job parameters (the spec's own failing example). -/
def pMinEqMax : Params := ⟨[("min", .num 5), ("max", .num 5)]⟩

/-- Webhook parameters whose url is a non-empty string but not a URL. -/
def pBadUrl : Params := ⟨[("url", .str "not a url")]⟩

/-- The system after creating one random job: job 0 is pending_payment. -/
def sysOnePending : Sys := runOps initSys [.create .random pRandom]

/-- The job stored by that creation. -/
def job0 : OracleJob :=
  { id := 0
    type := .random
    parameters := pRandom
    status := .pending_payment
    result := none
    createdAt := 0
    updatedAt := 0 }

/-- The job stored by a webhook creation with pBadUrl from the empty system. -/
def jobBadUrl : OracleJob :=
  { id := 0
    type := .webhook
    parameters := pBadUrl
    status := .pending_payment
    result := none
    createdAt := 0
    updatedAt := 0 }

/-- A status-only partial update, as both confirmation call sites build it. -/
def uConfirm : JobService.JobUpdate := { status := some .payment_confirmed }

/-- The store after a first caller, having read job 0 as pending_payment,
applies the confirming update. -/
def stAfterFirstUpdate : JobServiceState :=
  (JobService.updateJob sysOnePending.svc 0 uConfirm).2

/-- The system state reached when two concurrent Fetch requests with valid
proofs both execute their read-and-check phase on the same pending job before
either resumes from the verifyPayment await, and then both continuations run:
the composition of two fetchVerifyPhase executions for job 0. -/
def sysDoubleDispatch : Sys :=
  (fetchVerifyPhase demoCfg okVerdict
    ((fetchVerifyPhase demoCfg okVerdict sysOnePending 0 job0).2) 0 job0).2

/-- The stored job 0 after the one-pending-job system confirms it: advanced to
query_in_progress by the two updates (clock 1 then 2). -/
def job0q : OracleJob :=
  { id := 0
    type := .random
    parameters := pRandom
    status := .query_in_progress
    result := none
    createdAt := 0
    updatedAt := 2 }

/-- Reachability invariant of the system, preserved by every operation: ids at
or beyond the allocator are absent and have an empty status history; every
stored job's status history starts at pending_payment, follows the
immediate-successor chain, and ends at the job's current status; absent jobs
have an empty history; and every cached id is present in the store. -/
structure SysInv (sys : Sys) : Prop where
  fresh_absent : ∀ id, sys.svc.nextId ≤ id → JobService.getJob sys.svc id = none
  fresh_trace : ∀ id, sys.svc.nextId ≤ id → traceOf sys id = []
  trace_head : ∀ id job, JobService.getJob sys.svc id = some job →
    (traceOf sys id).head? = some .pending_payment
  trace_last : ∀ id job, JobService.getJob sys.svc id = some job →
    (traceOf sys id).getLast? = some job.status
  trace_chain : ∀ id, List.Chain' (fun a b => succStatus a b = true) (traceOf sys id)
  trace_absent : ∀ id, JobService.getJob sys.svc id = none → traceOf sys id = []
  cache_dom : ∀ id j, sys.cache.get id = some j → JobService.getJob sys.svc id ≠ none

theorem getA_setA_self {β : Type} (l : List (Nat × β)) (id : Nat) (v : β) :
    getA (setA l id v) id = some v := by
  induction l with
  | nil => simp [setA, getA]
  | cons e rest ih =>
      by_cases h : e.1 = id
      · simp [setA, h, getA]
      · simp [setA, h, getA, ih]

theorem getA_setA_ne {β : Type} (l : List (Nat × β)) {id id' : Nat} (v : β)
    (h : id' ≠ id) : getA (setA l id v) id' = getA l id' := by
  induction l with
  | nil => simp [setA, getA, Ne.symm h]
  | cons e rest ih =>
      by_cases he : e.1 = id
      · simp [setA, he, getA, Ne.symm h]
      · simp [setA, he, getA, ih]

theorem getA_delA_self {β : Type} (l : List (Nat × β)) (id : Nat) :
    getA (delA l id) id = none := by
  induction l with
  | nil => simp [delA, getA]
  | cons e rest ih =>
      by_cases h : e.1 = id
      · simpa [delA, List.filter_cons, h, getA] using ih
      · simp only [delA, List.filter_cons] at ih ⊢
        simp [h, getA, ih]

theorem getA_delA_ne {β : Type} (l : List (Nat × β)) {id id' : Nat}
    (h : id' ≠ id) : getA (delA l id) id' = getA l id' := by
  induction l with
  | nil => simp [delA, getA]
  | cons e rest ih =>
      simp only [delA, List.filter_cons] at ih ⊢
      by_cases he : e.1 = id
      · subst he
        simp [getA, Ne.symm h, ih]
      · by_cases he' : e.1 = id'
        · simp [he, getA, he', h]
        · simp [he, getA, he', ih]

theorem updateJob_absent {st : JobServiceState} {id : Nat} (u : JobService.JobUpdate)
    (h : JobService.getJob st id = none) :
    JobService.updateJob st id u = (none, st) := by
  simp [JobService.updateJob, h]

theorem updateJob_present {st : JobServiceState} {id : Nat} {job : OracleJob}
    (u : JobService.JobUpdate) (h : JobService.getJob st id = some job) :
    JobService.updateJob st id u =
      (some (JobService.mergeJob job u st.clock),
        { st with jobs := setA st.jobs id (JobService.mergeJob job u st.clock),
                  clock := st.clock + 1 }) := by
  simp [JobService.updateJob, h]

theorem sysUpdate_present {sys : Sys} {id : Nat} {job : OracleJob}
    (s : JobStatus) (r : Option JobResult)
    (h : JobService.getJob sys.svc id = some job) :
    Sys.update sys id { status := some s, result := r } =
      (some (JobService.mergeJob job { status := some s, result := r } sys.svc.clock),
        { sys with
          svc := { sys.svc with
            jobs := setA sys.svc.jobs id
              (JobService.mergeJob job { status := some s, result := r } sys.svc.clock)
            clock := sys.svc.clock + 1 }
          slog := sys.slog ++ [(id, s)] }) := by
  simp [Sys.update, updateJob_present _ h]

theorem createCtrl_invalid {sys : Sys} {ty : JobType} {p : Params} {msg : String}
    (h : validateJobParams ty p = some msg) :
    createJobCtrl sys ty p = (.badRequest msg, sys) := by
  simp [createJobCtrl, h]

theorem createCtrl_valid {sys : Sys} {ty : JobType} {p : Params}
    (h : validateJobParams ty p = none) :
    createJobCtrl sys ty p =
      (.created sys.svc.nextId .pending_payment
          (createPaymentRequest (JobService.newJobOf sys.svc ty p)),
        { sys with
          svc := { jobs := setA sys.svc.jobs sys.svc.nextId (JobService.newJobOf sys.svc ty p)
                   nextId := sys.svc.nextId + 1
                   clock := sys.svc.clock + 1 }
          slog := sys.slog ++ [(sys.svc.nextId, .pending_payment)] }) := by
  simp [createJobCtrl, h, JobService.createJob, JobService.newJobOf]

theorem confirm_absent {sys : Sys} {id : Nat}
    (h : JobService.getJob sys.svc id = none) :
    confirmPaymentCtrl sys id = (.notFound, sys) := by
  simp [confirmPaymentCtrl, h]

theorem confirm_nonpending {sys : Sys} {id : Nat} {job : OracleJob}
    (hget : JobService.getJob sys.svc id = some job)
    (hnp : job.status ≠ .pending_payment) :
    confirmPaymentCtrl sys id =
      (.badRequest ("Job is not in pending_payment status. Current status: "
          ++ statusString job.status), sys) := by
  simp [confirmPaymentCtrl, hget, hnp]

theorem confirm_pending {sys : Sys} {id : Nat} {job : OracleJob}
    (hget : JobService.getJob sys.svc id = some job)
    (hpend : job.status = .pending_payment) :
    confirmPaymentCtrl sys id =
      (.snapshot (some (JobService.mergeJob
          (JobService.mergeJob job { status := some .payment_confirmed } sys.svc.clock)
          { status := some .query_in_progress } (sys.svc.clock + 1))),
        { svc :=
            { jobs :=
                setA
                  (setA sys.svc.jobs id
                    (JobService.mergeJob job { status := some .payment_confirmed }
                      sys.svc.clock))
                  id
                  (JobService.mergeJob
                    (JobService.mergeJob job { status := some .payment_confirmed }
                      sys.svc.clock)
                    { status := some .query_in_progress } (sys.svc.clock + 1))
              nextId := sys.svc.nextId
              clock := sys.svc.clock + 2 }
          cache := sys.cache.del id
          queue := sys.queue ++ [job]
          slog := sys.slog ++ [(id, .payment_confirmed), (id, .query_in_progress)] }) := by
  have h1 := sysUpdate_present .payment_confirmed none hget
  simp only [confirmPaymentCtrl, hget, hpend]
  rw [h1]
  have hget1 : JobService.getJob
      ({ sys with
        svc := { sys.svc with
          jobs := setA sys.svc.jobs id
            (JobService.mergeJob job { status := some .payment_confirmed } sys.svc.clock)
          clock := sys.svc.clock + 1 }
        slog := sys.slog ++ [(id, .payment_confirmed)] } : Sys).svc id =
      some (JobService.mergeJob job { status := some .payment_confirmed } sys.svc.clock) := by
    simp [JobService.getJob, getA_setA_self]
  rw [sysUpdate_present (s := .query_in_progress) (r := none) hget1]
  simp [JobService.getJob, getA_setA_self]

theorem fetchVerify_rejected {cfg : FacilitatorConfig}
    {v : FacilitatorService.PaymentVerificationResult} {sys : Sys} {id : Nat}
    (snap : OracleJob) (hv : v.verified = false) :
    fetchVerifyPhase cfg v sys id snap =
      (.paymentRequired (FacilitatorService.getPaymentInstructions cfg) id
          (some (orDefault v.error "Payment verification failed")), sys) := by
  simp [fetchVerifyPhase, hv]

theorem fetchVerify_success (cfg : FacilitatorConfig)
    {v : FacilitatorService.PaymentVerificationResult} {sys : Sys} {id : Nat}
    {job : OracleJob} (snap : OracleJob)
    (hget : JobService.getJob sys.svc id = some job) (hv : v.verified = true) :
    fetchVerifyPhase cfg v sys id snap =
      (.snapshot (some (JobService.mergeJob
          (JobService.mergeJob job { status := some .payment_confirmed } sys.svc.clock)
          { status := some .query_in_progress } (sys.svc.clock + 1))),
        { svc :=
            { jobs :=
                setA
                  (setA sys.svc.jobs id
                    (JobService.mergeJob job { status := some .payment_confirmed }
                      sys.svc.clock))
                  id
                  (JobService.mergeJob
                    (JobService.mergeJob job { status := some .payment_confirmed }
                      sys.svc.clock)
                    { status := some .query_in_progress } (sys.svc.clock + 1))
              nextId := sys.svc.nextId
              clock := sys.svc.clock + 2 }
          cache := sys.cache.del id
          queue := sys.queue ++ [snap]
          slog := sys.slog ++ [(id, .payment_confirmed), (id, .query_in_progress)] }) := by
  have h1 := sysUpdate_present .payment_confirmed none hget
  simp only [fetchVerifyPhase, hv]
  rw [h1]
  have hget1 : JobService.getJob
      ({ sys with
        svc := { sys.svc with
          jobs := setA sys.svc.jobs id
            (JobService.mergeJob job { status := some .payment_confirmed } sys.svc.clock)
          clock := sys.svc.clock + 1 }
        slog := sys.slog ++ [(id, .payment_confirmed)] } : Sys).svc id =
      some (JobService.mergeJob job { status := some .payment_confirmed } sys.svc.clock) := by
    simp [JobService.getJob, getA_setA_self]
  rw [sysUpdate_present (s := .query_in_progress) (r := none) hget1]
  simp [JobService.getJob, getA_setA_self]

theorem phaseA_missing {sys : Sys} {id : Nat} (hdr : Option String)
    (h : JobService.getJob sys.svc id = none) :
    fetchPhaseA sys id hdr = .jobMissing := by
  simp [fetchPhaseA, h]

theorem phaseA_pending_nohdr {sys : Sys} {id : Nat} {job : OracleJob} {hdr : Option String}
    (hget : JobService.getJob sys.svc id = some job)
    (hpend : job.status = .pending_payment) (hh : truthy hdr = false) :
    fetchPhaseA sys id hdr = .payRequired id := by
  simp [fetchPhaseA, hget, hpend, hh]

theorem phaseA_pending_hdr {sys : Sys} {id : Nat} {job : OracleJob} {hdr : Option String}
    (hget : JobService.getJob sys.svc id = some job)
    (hpend : job.status = .pending_payment) (hh : truthy hdr = true) :
    fetchPhaseA sys id hdr = .toVerify job := by
  simp [fetchPhaseA, hget, hpend, hh]

theorem phaseA_nonpending {sys : Sys} {id : Nat} {job : OracleJob} (hdr : Option String)
    (hget : JobService.getJob sys.svc id = some job)
    (hnp : job.status ≠ .pending_payment) :
    fetchPhaseA sys id hdr = .readPath := by
  simp [fetchPhaseA, hget, hnp]

theorem readPhase_hit {sys : Sys} {id : Nat} {c : OracleJob}
    (h : sys.cache.get id = some c) :
    fetchReadPhase sys id = (.snapshot (some c), sys) := by
  simp [fetchReadPhase, h]

theorem readPhase_miss_present {sys : Sys} {id : Nat} {j : OracleJob}
    (hc : sys.cache.get id = none) (hj : JobService.getJob sys.svc id = some j) :
    fetchReadPhase sys id =
      (.snapshot (some j), { sys with cache := sys.cache.set id j 60 }) := by
  simp [fetchReadPhase, hc, hj]

theorem readPhase_miss_absent {sys : Sys} {id : Nat}
    (hc : sys.cache.get id = none) (hj : JobService.getJob sys.svc id = none) :
    fetchReadPhase sys id = (.notFound, sys) := by
  simp [fetchReadPhase, hc, hj]

theorem worker_absent {sys : Sys} {id : Nat} (outcome : JobResult)
    (h : JobService.getJob sys.svc id = none) :
    workerComplete sys id outcome = sys := by
  simp [workerComplete, h]

theorem worker_nonprogress {sys : Sys} {id : Nat} {job : OracleJob} (outcome : JobResult)
    (hget : JobService.getJob sys.svc id = some job)
    (hnp : job.status ≠ .query_in_progress) :
    workerComplete sys id outcome = sys := by
  simp [workerComplete, hget, hnp]

theorem worker_progress {sys : Sys} {id : Nat} {job : OracleJob} (outcome : JobResult)
    (hget : JobService.getJob sys.svc id = some job)
    (hpr : job.status = .query_in_progress) :
    workerComplete sys id outcome =
      { svc := { sys.svc with
          jobs := setA sys.svc.jobs id
            (JobService.mergeJob job
              { status := some (match outcome with
                                | .success _ => JobStatus.completed
                                | .failure _ => JobStatus.failed)
                result := some outcome } sys.svc.clock)
          clock := sys.svc.clock + 1 }
        cache := sys.cache.del id
        queue := sys.queue
        slog := sys.slog ++ [(id, (match outcome with
                                   | .success _ => JobStatus.completed
                                   | .failure _ => JobStatus.failed))] } := by
  have h1 := sysUpdate_present
    (match outcome with
     | .success _ => JobStatus.completed
     | .failure _ => JobStatus.failed) (some outcome) hget
  simp only [workerComplete, hget, hpr]
  rw [h1]
  simp

theorem validate_random_eq (p : Params) :
    validateJobParams .random p =
      if specRandomValid p = true then none
      else some "Random job requires valid min and max numbers where min < max" := by
  unfold validateJobParams specRandomValid
  cases hm : p.get "min" with
  | none => simp [hm]
  | some v1 =>
    cases v1 with
    | num mn =>
      cases hx : p.get "max" with
      | none => simp [hm, hx]
      | some v2 =>
        cases v2 with
        | num mx =>
            by_cases hlt : mn < mx
            · simp [hm, hx, hlt, not_le.mpr hlt]
            · simp [hm, hx, hlt, not_lt.mp hlt]
        | str s => simp [hm, hx]
        | otherVal => simp [hm, hx]
    | str s => simp [hm]
    | otherVal => simp [hm]

theorem validate_webhook_eq (p : Params) :
    validateJobParams .webhook p =
      if webhookParamOK p = true then none
      else some "Webhook job requires a url parameter (string)" := by
  unfold validateJobParams webhookParamOK
  cases hm : p.get "url" with
  | none => simp [hm]
  | some v1 =>
    cases v1 with
    | num n => simp [hm]
    | str s =>
        by_cases hs : s = ""
        · simp [hm, hs]
        · simp [hm, hs]
    | otherVal => simp [hm]

/-- C5: for every Fetch call on a pending_payment job where either no payment
proof is supplied (the header is absent or empty, hence falsy) or the supplied
proof fails verification (a rejected, erroring or timed-out verify yields an
unverified verdict), the response is the 402 payment-required outcome carrying
the payment instructions and the job id — annotated with the rejection reason
in the rejected case — and the whole system state is unchanged: the job
remains pending_payment. -/
theorem c5_payment_required_no_mutation
    (cfg : FacilitatorConfig) (v : FacilitatorService.PaymentVerificationResult)
    (sys : Sys) (id : Nat) (job : OracleJob) (hdr : Option String)
    (hget : JobService.getJob sys.svc id = some job)
    (hpend : job.status = .pending_payment) :
    (truthy hdr = false →
      getJobCtrl cfg v sys id hdr =
        (.paymentRequired (FacilitatorService.getPaymentInstructions cfg) id none, sys)) ∧
    (truthy hdr = true → v.verified = false →
      getJobCtrl cfg v sys id hdr =
        (.paymentRequired (FacilitatorService.getPaymentInstructions cfg) id
            (some (orDefault v.error "Payment verification failed")), sys)) := by
  constructor
  · intro hh
    simp [getJobCtrl, phaseA_pending_nohdr hget hpend hh]
  · intro hh hv
    simp [getJobCtrl, phaseA_pending_hdr hget hpend hh, fetchVerify_rejected job hv]

/-- Witness for C5: on the concrete one-pending-job system, a Fetch without a
header and a Fetch whose proof the facilitator rejects both produce the 402
outcome and leave the system untouched. -/
theorem c5_witness :
    getJobCtrl demoCfg badVerdict sysOnePending 0 none =
      (.paymentRequired (FacilitatorService.getPaymentInstructions demoCfg) 0 none,
        sysOnePending) ∧
    getJobCtrl demoCfg badVerdict sysOnePending 0 (some "proof") =
      (.paymentRequired (FacilitatorService.getPaymentInstructions demoCfg) 0
          (some "Invalid payment"), sysOnePending) := by
  constructor
  · exact (c5_payment_required_no_mutation demoCfg badVerdict sysOnePending 0 job0 none
      (by decide) (by decide)).1 (by decide)
  · exact (c5_payment_required_no_mutation demoCfg badVerdict sysOnePending 0 job0
      (some "proof") (by decide) (by decide)).2 (by decide) (by decide)

/-- C8: creation of a random job fails with a validation error and creates no
job whenever min or max is not a number or min is not strictly below max (in
particular for min 5, max 5), and succeeds for every numeric pair with min
strictly below max, returning the newly created job in state pending_payment,
stored under the returned id, without dispatching anything. -/
theorem c8_random_validation (sys : Sys) (p : Params) :
    (specRandomValid p = false →
      createJobCtrl sys .random p =
        (.badRequest "Random job requires valid min and max numbers where min < max", sys)) ∧
    (specRandomValid p = true →
      (createJobCtrl sys .random p).1 =
        .created (JobService.newJobOf sys.svc .random p).id .pending_payment
          (createPaymentRequest (JobService.newJobOf sys.svc .random p)) ∧
      (JobService.newJobOf sys.svc .random p).status = .pending_payment ∧
      JobService.getJob (createJobCtrl sys .random p).2.svc
          (JobService.newJobOf sys.svc .random p).id =
        some (JobService.newJobOf sys.svc .random p) ∧
      (createJobCtrl sys .random p).2.queue = sys.queue) := by
  constructor
  · intro hf
    have hv : validateJobParams .random p =
        some "Random job requires valid min and max numbers where min < max" := by
      rw [validate_random_eq, hf]; simp
    exact createCtrl_invalid hv
  · intro ht
    have hv : validateJobParams .random p = none := by
      rw [validate_random_eq, ht]; simp
    rw [createCtrl_valid hv]
    refine ⟨by simp [JobService.newJobOf], rfl, ?_, rfl⟩
    simp [JobService.getJob, JobService.newJobOf, getA_setA_self]

/-- Witness for C8: min 5, max 5 is rejected with the validation error and no
state change; min 1, max 402 creates job 0 in pending_payment. -/
theorem c8_witness :
    createJobCtrl initSys .random pMinEqMax =
      (.badRequest "Random job requires valid min and max numbers where min < max", initSys) ∧
    (createJobCtrl initSys .random pRandom).1 =
      .created 0 .pending_payment (createPaymentRequest job0) := by
  constructor
  · exact (c8_random_validation initSys pMinEqMax).1 (by decide)
  · exact (((c8_random_validation initSys pRandom).2 (by decide)).1).trans (by decide)

/-- Counterexample to C9: the string "not a url" is not a syntactically valid
URL (it contains spaces and no scheme), yet webhook creation with it succeeds
and a job is stored: the controller performs no URL syntax validation. -/
theorem c9_counterexample :
    urlSyntaxOK "not a url" = false ∧
    (createJobCtrl initSys .webhook pBadUrl).1 =
      .created 0 .pending_payment (createPaymentRequest jobBadUrl) ∧
    JobService.getJob (createJobCtrl initSys .webhook pBadUrl).2.svc 0 = some jobBadUrl := by
  refine ⟨by decide, by decide, by decide⟩

/-- C9 as amended: webhook creation is rejected with a validation error and no
job exactly when the url parameter is absent, not a string, or the empty
string; any non-empty string — syntactically a URL or not — is accepted and
creates a pending_payment job. -/
theorem c9_webhook_validation (sys : Sys) (p : Params) :
    (webhookParamOK p = false →
      createJobCtrl sys .webhook p =
        (.badRequest "Webhook job requires a url parameter (string)", sys)) ∧
    (webhookParamOK p = true →
      (createJobCtrl sys .webhook p).1 =
        .created (JobService.newJobOf sys.svc .webhook p).id .pending_payment
          (createPaymentRequest (JobService.newJobOf sys.svc .webhook p)) ∧
      JobService.getJob (createJobCtrl sys .webhook p).2.svc
          (JobService.newJobOf sys.svc .webhook p).id =
        some (JobService.newJobOf sys.svc .webhook p)) := by
  constructor
  · intro hf
    have hv : validateJobParams .webhook p =
        some "Webhook job requires a url parameter (string)" := by
      rw [validate_webhook_eq, hf]; simp
    exact createCtrl_invalid hv
  · intro ht
    have hv : validateJobParams .webhook p = none := by
      rw [validate_webhook_eq, ht]; simp
    rw [createCtrl_valid hv]
    refine ⟨by simp [JobService.newJobOf], ?_⟩
    simp [JobService.getJob, JobService.newJobOf, getA_setA_self]

/-- Witness for C9's amended theorem: an empty parameters object is rejected
without a state change; the non-URL string "not a url" is accepted. -/
theorem c9_witness :
    createJobCtrl initSys .webhook ⟨[]⟩ =
      (.badRequest "Webhook job requires a url parameter (string)", initSys) ∧
    (createJobCtrl initSys .webhook pBadUrl).1 =
      .created 0 .pending_payment (createPaymentRequest jobBadUrl) := by
  constructor
  · exact (c9_webhook_validation initSys ⟨[]⟩).1 (by decide)
  · exact (((c9_webhook_validation initSys pBadUrl).2 (by decide)).1).trans (by decide)

theorem fetch_after_nonpending (cfg : FacilitatorConfig)
    (v : FacilitatorService.PaymentVerificationResult) {sys : Sys} {id : Nat}
    {j : OracleJob} (hdr : Option String)
    (hc : sys.cache.get id = none) (hj : JobService.getJob sys.svc id = some j)
    (hnp : j.status ≠ .pending_payment) :
    getJobCtrl cfg v sys id hdr =
      (.snapshot (some j), { sys with cache := sys.cache.set id j 60 }) := by
  simp [getJobCtrl, phaseA_nonpending hdr hj hnp, readPhase_miss_present hc hj]

/-- Counterexample to C2: JobService.updateJob performs no version or expected
state check and never returns a conflict. Two identical confirming updates —
the second necessarily presenting a stale view once the first has been
accepted — both succeed, and the second one mutates the store again instead of
being rejected without side effects, contradicting the claim that a mutation
presenting a stale version returns Conflict and leaves the job unchanged. -/
theorem c2_counterexample :
    (JobService.updateJob sysOnePending.svc 0 uConfirm).1.isSome = true ∧
    (JobService.updateJob stAfterFirstUpdate 0 uConfirm).1.isSome = true ∧
    (JobService.updateJob stAfterFirstUpdate 0 uConfirm).2 ≠ stAfterFirstUpdate := by
  refine ⟨by decide, by decide, by decide⟩

/-- C2 as amended: every mutation of a stored job is applied unconditionally.
updateJob takes no expectedState or expectedVersion, jobs carry no version
field, and there is no Conflict outcome: for a missing id it returns null and
leaves the store untouched, and for any stored job it always applies the
merge (overriding the given fields and refreshing updatedAt), re-stores the
job under the same id, and leaves every other job unchanged. -/
theorem c2_update_unconditional (st : JobServiceState) (id : Nat)
    (u : JobService.JobUpdate) :
    (JobService.getJob st id = none → JobService.updateJob st id u = (none, st)) ∧
    (∀ job, JobService.getJob st id = some job →
      (JobService.updateJob st id u).1 = some (JobService.mergeJob job u st.clock) ∧
      JobService.getJob (JobService.updateJob st id u).2 id =
        some (JobService.mergeJob job u st.clock) ∧
      (∀ id', id' ≠ id →
        JobService.getJob (JobService.updateJob st id u).2 id' =
          JobService.getJob st id')) := by
  constructor
  · exact fun h => updateJob_absent u h
  · intro job h
    rw [updateJob_present u h]
    refine ⟨rfl, ?_, ?_⟩
    · simp [JobService.getJob, getA_setA_self]
    · intro id' hne
      simp [JobService.getJob, getA_setA_ne _ _ hne]

/-- Witness for C2's amended theorem: updating a missing id returns null and
leaves the store unchanged; updating stored job 0 applies the merge. -/
theorem c2_witness :
    JobService.updateJob stAfterFirstUpdate 5 uConfirm = (none, stAfterFirstUpdate) ∧
    (JobService.updateJob sysOnePending.svc 0 uConfirm).1 =
      some (JobService.mergeJob job0 uConfirm sysOnePending.svc.clock) := by
  constructor
  · exact (c2_update_unconditional stAfterFirstUpdate 5 uConfirm).1 (by decide)
  · exact ((c2_update_unconditional sysOnePending.svc 0 uConfirm).2 job0 (by decide)).1

/-- Counterexample to C6: on a pending job, a Fetch with a verified proof
advances the stored job to query_in_progress but hands the queue the stale
snapshot read before confirmation — the dispatcher receives a job value whose
state field is pending_payment. -/
theorem c6_counterexample :
    (getJobCtrl demoCfg okVerdict sysOnePending 0 (some "proof")).2.queue = [job0] ∧
    job0.status = .pending_payment ∧
    ((JobService.getJob (getJobCtrl demoCfg okVerdict sysOnePending 0 (some "proof")).2.svc 0).map
        (fun j => j.status)) = some .query_in_progress := by
  refine ⟨by decide, by decide, by decide⟩

/-- C6 as amended: at the time of submission the stored job has been advanced
to query_in_progress, but the value handed to QueueService.addJob is the
snapshot read at the start of the handler, whose status field is still
pending_payment — the dispatcher never receives the advanced job value. -/
theorem c6_submitted_value_stale (cfg : FacilitatorConfig)
    (v : FacilitatorService.PaymentVerificationResult) (sys : Sys) (id : Nat)
    (job : OracleJob) (hdr : Option String)
    (hget : JobService.getJob sys.svc id = some job)
    (hpend : job.status = .pending_payment)
    (hh : truthy hdr = true) (hv : v.verified = true) :
    (getJobCtrl cfg v sys id hdr).2.queue = sys.queue ++ [job] ∧
    job.status = .pending_payment ∧
    ((JobService.getJob (getJobCtrl cfg v sys id hdr).2.svc id).map (fun j => j.status)) =
      some .query_in_progress := by
  have hA := phaseA_pending_hdr hget hpend hh
  have hV := fetchVerify_success cfg job hget hv
  have hfirst : getJobCtrl cfg v sys id hdr = fetchVerifyPhase cfg v sys id job := by
    simp only [getJobCtrl, hA]
  rw [hfirst, hV]
  refine ⟨by simp, hpend, ?_⟩
  simp [JobService.getJob, getA_setA_self, JobService.mergeJob]

/-- Witness for C6's amended theorem at the concrete one-pending-job system. -/
theorem c6_witness :
    (getJobCtrl demoCfg okVerdict sysOnePending 0 (some "p")).2.queue = [] ++ [job0] ∧
    job0.status = .pending_payment ∧
    ((JobService.getJob (getJobCtrl demoCfg okVerdict sysOnePending 0 (some "p")).2.svc 0).map
        (fun j => j.status)) = some .query_in_progress := by
  have h := c6_submitted_value_stale demoCfg okVerdict sysOnePending 0 job0 (some "p")
    (by decide) (by decide) (by decide) (by decide)
  simpa using h

/-- C7 as a code bug, evaluated at the failing input: with one stored job, the
service does return the job array, but the controller reads the jobs and
total fields off that bare array — both undefined — so the list response
carries no jobs and no total, and hasMore is false (the JS comparison of a
number with undefined); the claimed page of matching jobs with a filtered
total is never produced. -/
theorem c7_list_fields_undefined :
    JobService.getAllJobs sysOnePending.svc = [job0] ∧
    listJobsCtrl sysOnePending 50 0 none none =
      { jobs := none, limit := 50, offset := 0, total := none, hasMore := false } := by
  refine ⟨by decide, by decide⟩

/-- Counterexample to C1: two Fetch calls with valid proofs arrive
concurrently for the same pending_payment job. Both suspend on the awaited
facilitator verification, so both execute the read-and-check phase on the
pending job before either continuation runs (the verify call always yields:
in demo mode it sleeps 200 ms, in live mode it performs a network round
trip). Both continuations then run to completion: the job is dispatched to
the execution queue twice and enters query_in_progress twice, not once. -/
theorem c1_counterexample :
    fetchPhaseA sysOnePending 0 (some "proofA") = .toVerify job0 ∧
    fetchPhaseA sysOnePending 0 (some "proofB") = .toVerify job0 ∧
    sysDoubleDispatch.queue.length = 2 ∧
    (sysDoubleDispatch.slog.filter (fun e => e.2 == JobStatus.query_in_progress)).length = 2 := by
  refine ⟨by decide, by decide, by decide, by decide⟩

/-- C1 as amended: the at-most-once dispatch guarantee holds only for
serialized calls. When a Fetch with a valid proof runs to completion on a
pending_payment job, exactly one job value is appended to the execution
queue, and any later Fetch for the same job — serialized after the first —
dispatches nothing and observes the successor query_in_progress snapshot.
Interleaved verified Fetch calls that both read the job as pending_payment
before either writes each dispatch (see the counterexample): the code has no
version-checked transition to make the second attempt fail. -/
theorem c1_serialized_single_dispatch (cfg : FacilitatorConfig)
    (v : FacilitatorService.PaymentVerificationResult) (sys : Sys) (id : Nat)
    (job : OracleJob) (hdr : Option String)
    (hget : JobService.getJob sys.svc id = some job)
    (hpend : job.status = .pending_payment)
    (hh : truthy hdr = true) (hv : v.verified = true) :
    (getJobCtrl cfg v sys id hdr).2.queue = sys.queue ++ [job] ∧
    (∀ cfg2 v2 hdr2,
      (getJobCtrl cfg2 v2 (getJobCtrl cfg v sys id hdr).2 id hdr2).2.queue =
        (getJobCtrl cfg v sys id hdr).2.queue ∧
      ∃ j', (getJobCtrl cfg2 v2 (getJobCtrl cfg v sys id hdr).2 id hdr2).1 =
          .snapshot (some j') ∧ j'.status = .query_in_progress) := by
  have hA := phaseA_pending_hdr hget hpend hh
  have hV := fetchVerify_success cfg job hget hv
  have hfirst : getJobCtrl cfg v sys id hdr = fetchVerifyPhase cfg v sys id job := by
    simp only [getJobCtrl, hA]
  have hj2 : JobService.getJob
      ((fetchVerifyPhase cfg v sys id job).2).svc id =
      some (JobService.mergeJob
        (JobService.mergeJob job { status := some .payment_confirmed } sys.svc.clock)
        { status := some .query_in_progress } (sys.svc.clock + 1)) := by
    rw [hV]
    simp [JobService.getJob, getA_setA_self]
  have hc2 : ((fetchVerifyPhase cfg v sys id job).2).cache.get id = none := by
    rw [hV]
    simp [CacheState.get, CacheState.del, getA_delA_self]
  have hnp2 : (JobService.mergeJob
      (JobService.mergeJob job { status := some .payment_confirmed } sys.svc.clock)
      { status := some .query_in_progress } (sys.svc.clock + 1)).status ≠
      .pending_payment := by
    simp [JobService.mergeJob]
  constructor
  · rw [hfirst, hV]
  · intro cfg2 v2 hdr2
    rw [hfirst, fetch_after_nonpending cfg2 v2 hdr2 hc2 hj2 hnp2]
    exact ⟨rfl, _, rfl, by simp [JobService.mergeJob]⟩

/-- Witness for C1's amended theorem: on the concrete system the first Fetch
dispatches once, and a serialized second Fetch dispatches nothing and sees
the in-progress snapshot. -/
theorem c1_witness :
    (getJobCtrl demoCfg okVerdict sysOnePending 0 (some "p")).2.queue = [] ++ [job0] ∧
    (∀ cfg2 v2 hdr2,
      (getJobCtrl cfg2 v2 (getJobCtrl demoCfg okVerdict sysOnePending 0 (some "p")).2 0 hdr2).2.queue =
        (getJobCtrl demoCfg okVerdict sysOnePending 0 (some "p")).2.queue ∧
      ∃ j', (getJobCtrl cfg2 v2 (getJobCtrl demoCfg okVerdict sysOnePending 0 (some "p")).2 0 hdr2).1 =
          .snapshot (some j') ∧ j'.status = .query_in_progress) := by
  have h := c1_serialized_single_dispatch demoCfg okVerdict sysOnePending 0 job0 (some "p")
    (by decide) (by decide) (by decide) (by decide)
  simpa using h

theorem sysUpdate_domain (sys : Sys) (uid : Nat) (u : JobService.JobUpdate) (id : Nat)
    (h : JobService.getJob sys.svc id = none) :
    JobService.getJob (Sys.update sys uid u).2.svc id = none := by
  rcases hu : JobService.getJob sys.svc uid with _ | job
  · simp only [Sys.update, updateJob_absent u hu]
    exact h
  · have hne : id ≠ uid := by
      intro he
      rw [he, hu] at h
      exact Option.noConfusion h
    simp only [Sys.update, updateJob_present u hu]
    simp only [JobService.getJob] at h ⊢
    rw [getA_setA_ne _ _ hne]
    exact h

theorem fetchVerify_domain (cfg : FacilitatorConfig)
    (v : FacilitatorService.PaymentVerificationResult) (sys : Sys)
    (fid : Nat) (snap : OracleJob) (id : Nat)
    (h : JobService.getJob sys.svc id = none) :
    JobService.getJob (fetchVerifyPhase cfg v sys fid snap).2.svc id = none := by
  rcases hv : v.verified with _ | _
  · rw [fetchVerify_rejected snap hv]
    exact h
  · simp only [fetchVerifyPhase, hv]
    simp only [Bool.true_eq_false, if_false]
    exact sysUpdate_domain _ fid _ id (sysUpdate_domain sys fid _ id h)

theorem applyOp_domain (sys : Sys) (op : Op) (id : Nat)
    (h : JobService.getJob sys.svc id = none)
    (hnc : id ∉ createdIds sys [op]) :
    JobService.getJob (applyOp sys op).svc id = none := by
  cases op with
  | create ty p =>
      cases hval : validateJobParams ty p with
      | some msg =>
          simp only [applyOp, createCtrl_invalid hval]
          exact h
      | none =>
          have hne : id ≠ sys.svc.nextId := by
            intro he
            apply hnc
            simp [createdIds, createCtrl_valid hval, he]
          simp only [applyOp, createCtrl_valid hval]
          simp only [JobService.getJob] at h ⊢
          rw [getA_setA_ne _ _ hne]
          exact h
  | confirm cid =>
      rcases hg : JobService.getJob sys.svc cid with _ | job
      · simp only [applyOp, confirm_absent hg]
        exact h
      · by_cases hp : job.status = .pending_payment
        · have hne : id ≠ cid := by
            intro he
            rw [he, hg] at h
            exact Option.noConfusion h
          simp only [applyOp, confirm_pending hg hp]
          simp only [JobService.getJob] at h ⊢
          rw [getA_setA_ne _ _ hne, getA_setA_ne _ _ hne]
          exact h
        · simp only [applyOp, confirm_nonpending hg hp]
          exact h
  | fetch cfg v fid hdr =>
      rcases hA : fetchPhaseA sys fid hdr with _ | jid | snap | _
      · simp only [applyOp, getJobCtrl, hA]
        exact h
      · simp only [applyOp, getJobCtrl, hA]
        exact h
      · simp only [applyOp, getJobCtrl, hA]
        exact fetchVerify_domain cfg v sys fid snap id h
      · simp only [applyOp, getJobCtrl, hA]
        rcases hc : sys.cache.get fid with _ | c
        · rcases hj : JobService.getJob sys.svc fid with _ | cur
          · rw [readPhase_miss_absent hc hj]
            exact h
          · rw [readPhase_miss_present hc hj]
            exact h
        · rw [readPhase_hit hc]
          exact h
  | listQuery a b c d =>
      simpa [applyOp] using h
  | complete cid outcome =>
      rcases hg : JobService.getJob sys.svc cid with _ | job
      · simp only [applyOp, worker_absent _ hg]
        exact h
      · by_cases hp : job.status = .query_in_progress
        · have hne : id ≠ cid := by
            intro he
            rw [he, hg] at h
            exact Option.noConfusion h
          simp only [applyOp, worker_progress _ hg hp]
          simp only [JobService.getJob] at h ⊢
          rw [getA_setA_ne _ _ hne]
          exact h
        · simp only [applyOp, worker_nonprogress _ hg hp]
          exact h

theorem createdIds_cons (sys : Sys) (op : Op) (rest : List Op) :
    createdIds sys (op :: rest) =
      createdIds sys [op] ++ createdIds (applyOp sys op) rest := by
  cases op <;> simp [createdIds]

theorem run_domain (sys : Sys) (ops : List Op) (id : Nat)
    (h : JobService.getJob sys.svc id = none)
    (hnc : id ∉ createdIds sys ops) :
    JobService.getJob (runOps sys ops).svc id = none := by
  induction ops generalizing sys with
  | nil => exact h
  | cons op rest ih =>
      rw [createdIds_cons] at hnc
      simp only [List.mem_append, not_or] at hnc
      exact ih (applyOp sys op) (applyOp_domain sys op id h hnc.1) hnc.2

/-- C10: the create/get round-trip. JobService.createJob always returns a job
in status pending_payment whose createdAt equals its updatedAt, and an
immediately following getJob on the returned id yields exactly that job; and
over any sequence of operations from the empty system, a getJob that finds a
job can only be for an id that some createJob call returned — any id never
returned by createJob yields not-found. -/
theorem c10_create_get_roundtrip :
    (∀ st ty p,
      (JobService.createJob st ty p).1.status = .pending_payment ∧
      (JobService.createJob st ty p).1.createdAt = (JobService.createJob st ty p).1.updatedAt ∧
      JobService.getJob (JobService.createJob st ty p).2 (JobService.createJob st ty p).1.id =
        some (JobService.createJob st ty p).1) ∧
    (∀ ops id, JobService.getJob (runOps initSys ops).svc id ≠ none →
      id ∈ createdIds initSys ops) := by
  constructor
  · intro st ty p
    refine ⟨rfl, rfl, ?_⟩
    simp [JobService.createJob, JobService.getJob, getA_setA_self]
  · intro ops id h
    by_contra hnc
    exact h (run_domain initSys ops id rfl hnc)

/-- Witness for C10: a concrete creation has the round-trip properties, and on
the concrete trace the only retrievable id is the one createJob returned. -/
theorem c10_witness :
    ((JobService.createJob initSys.svc .random pRandom).1.status = .pending_payment ∧
      (JobService.createJob initSys.svc .random pRandom).1.createdAt =
        (JobService.createJob initSys.svc .random pRandom).1.updatedAt ∧
      JobService.getJob (JobService.createJob initSys.svc .random pRandom).2
          (JobService.createJob initSys.svc .random pRandom).1.id =
        some (JobService.createJob initSys.svc .random pRandom).1) ∧
    (0 : Nat) ∈ createdIds initSys [.create .random pRandom] := by
  constructor
  · exact c10_create_get_roundtrip.1 initSys.svc .random pRandom
  · exact c10_create_get_roundtrip.2 [.create .random pRandom] 0 (by decide)

theorem cacheGet_set_self (c : CacheState) (id : Nat) (j : OracleJob) (ttl : Nat) :
    (c.set id j ttl).get id = some j := by
  simp [CacheState.get, CacheState.set, getA_setA_self]

theorem cacheGet_set_ne (c : CacheState) {id id' : Nat} (j : OracleJob) (ttl : Nat)
    (h : id' ≠ id) : (c.set id j ttl).get id' = c.get id' := by
  simp [CacheState.get, CacheState.set, getA_setA_ne _ _ h]

theorem cacheGet_del_self (c : CacheState) (id : Nat) :
    (c.del id).get id = none := by
  simp [CacheState.get, CacheState.del, getA_delA_self]

theorem cacheGet_del_ne (c : CacheState) {id id' : Nat}
    (h : id' ≠ id) : (c.del id).get id' = c.get id' := by
  simp [CacheState.get, CacheState.del, getA_delA_ne _ h]

theorem cacheGet_del_sub {c : CacheState} {id id' : Nat} {j : OracleJob}
    (h : (c.del id).get id' = some j) : c.get id' = some j := by
  by_cases he : id' = id
  · subst he
    rw [cacheGet_del_self] at h
    exact absurd h (by simp)
  · rwa [cacheGet_del_ne c he] at h

theorem traceFilter_append (a b : List (Nat × JobStatus)) (id : Nat) :
    traceFilter (a ++ b) id = traceFilter a id ++ traceFilter b id := by
  simp [traceFilter]

theorem traceFilter_one_self (id : Nat) (s : JobStatus) :
    traceFilter [(id, s)] id = [s] := by
  simp [traceFilter]

theorem traceFilter_one_ne {id id' : Nat} (s : JobStatus) (h : id' ≠ id) :
    traceFilter [(id, s)] id' = [] := by
  simp [traceFilter, Ne.symm h]

theorem traceFilter_two_self (id : Nat) (s1 s2 : JobStatus) :
    traceFilter [(id, s1), (id, s2)] id = [s1, s2] := by
  simp [traceFilter]

theorem traceFilter_two_ne {id id' : Nat} (s1 s2 : JobStatus) (h : id' ≠ id) :
    traceFilter [(id, s1), (id, s2)] id' = [] := by
  simp [traceFilter, Ne.symm h]

theorem phaseA_toVerify_inv {sys : Sys} {id : Nat} {hdr : Option String}
    {snap : OracleJob} (h : fetchPhaseA sys id hdr = .toVerify snap) :
    JobService.getJob sys.svc id = some snap ∧ snap.status = .pending_payment := by
  rcases hg : JobService.getJob sys.svc id with _ | job
  · rw [phaseA_missing hdr hg] at h
    exact absurd h (by simp)
  · by_cases hp : job.status = .pending_payment
    · by_cases hh : truthy hdr = true
      · rw [phaseA_pending_hdr hg hp hh] at h
        injection h with h'
        subst h'
        exact ⟨rfl, hp⟩
      · have hh' : truthy hdr = false := by
          revert hh
          cases truthy hdr <;> simp
        rw [phaseA_pending_nohdr hg hp hh'] at h
        exact absurd h (by simp)
    · rw [phaseA_nonpending hdr hg hp] at h
      exact absurd h (by simp)

theorem inv_create (sys : Sys) (nj : OracleJob) (q : List OracleJob) (c : Nat)
    (hinv : SysInv sys) (hs : nj.status = .pending_payment) :
    SysInv { svc := { jobs := setA sys.svc.jobs sys.svc.nextId nj
                      nextId := sys.svc.nextId + 1
                      clock := c }
             cache := sys.cache
             queue := q
             slog := sys.slog ++ [(sys.svc.nextId, .pending_payment)] } := by
  constructor
  · intro id hle
    have hle' : sys.svc.nextId + 1 ≤ id := hle
    have hne : id ≠ sys.svc.nextId := by omega
    simp only [JobService.getJob]
    rw [getA_setA_ne _ _ hne]
    exact hinv.fresh_absent id (by omega)
  · intro id hle
    have hle' : sys.svc.nextId + 1 ≤ id := hle
    have hne : id ≠ sys.svc.nextId := by omega
    simp only [traceOf]
    rw [traceFilter_append, traceFilter_one_ne _ hne]
    have h0 := hinv.fresh_trace id (by omega)
    simp only [traceOf] at h0
    simp [h0]
  · intro id job hget
    simp only [traceOf]
    rw [traceFilter_append]
    by_cases he : id = sys.svc.nextId
    · subst he
      have h0 := hinv.fresh_trace sys.svc.nextId le_rfl
      simp only [traceOf] at h0
      rw [h0, traceFilter_one_self]
      rfl
    · rw [traceFilter_one_ne _ he]
      simp only [JobService.getJob] at hget
      rw [getA_setA_ne _ _ he] at hget
      have hh := hinv.trace_head id job hget
      simp only [traceOf] at hh
      rw [List.append_nil]
      exact hh
  · intro id job hget
    simp only [traceOf]
    rw [traceFilter_append]
    by_cases he : id = sys.svc.nextId
    · subst he
      simp only [JobService.getJob] at hget
      rw [getA_setA_self] at hget
      have hj : job = nj := by
        injection hget with h'
        exact h'.symm
      subst hj
      have h0 := hinv.fresh_trace sys.svc.nextId le_rfl
      simp only [traceOf] at h0
      rw [h0, traceFilter_one_self, hs]
      rfl
    · rw [traceFilter_one_ne _ he]
      simp only [JobService.getJob] at hget
      rw [getA_setA_ne _ _ he] at hget
      have hh := hinv.trace_last id job hget
      simp only [traceOf] at hh
      rw [List.append_nil]
      exact hh
  · intro id
    simp only [traceOf]
    rw [traceFilter_append]
    by_cases he : id = sys.svc.nextId
    · subst he
      have h0 := hinv.fresh_trace sys.svc.nextId le_rfl
      simp only [traceOf] at h0
      rw [h0, traceFilter_one_self]
      simp
    · rw [traceFilter_one_ne _ he, List.append_nil]
      have hh := hinv.trace_chain id
      simpa only [traceOf] using hh
  · intro id hnone
    simp only [JobService.getJob] at hnone
    by_cases he : id = sys.svc.nextId
    · subst he
      rw [getA_setA_self] at hnone
      exact absurd hnone (by simp)
    · rw [getA_setA_ne _ _ he] at hnone
      simp only [traceOf]
      rw [traceFilter_append, traceFilter_one_ne _ he, List.append_nil]
      have hh := hinv.trace_absent id hnone
      simpa only [traceOf] using hh
  · intro id j hc
    simp only at hc
    have hold := hinv.cache_dom id j hc
    simp only [JobService.getJob] at hold ⊢
    by_cases he : id = sys.svc.nextId
    · subst he
      rw [getA_setA_self]
      simp
    · rw [getA_setA_ne _ _ he]
      exact hold

theorem inv_double_write (sys : Sys) (cid : Nat) (job j1 j2 : OracleJob)
    (c : Nat) (q : List OracleJob) (s1 s2 : JobStatus)
    (hget : JobService.getJob sys.svc cid = some job)
    (hinv : SysInv sys)
    (h1 : succStatus job.status s1 = true)
    (h2 : succStatus s1 s2 = true)
    (hj2 : j2.status = s2) :
    SysInv { svc := { jobs := setA (setA sys.svc.jobs cid j1) cid j2
                      nextId := sys.svc.nextId
                      clock := c }
             cache := sys.cache.del cid
             queue := q
             slog := sys.slog ++ [(cid, s1), (cid, s2)] } := by
  have hcidlt : ¬ (sys.svc.nextId ≤ cid) := by
    intro hle
    rw [hinv.fresh_absent cid hle] at hget
    exact Option.noConfusion hget
  have hthead := hinv.trace_head cid job hget
  have htlast := hinv.trace_last cid job hget
  simp only [traceOf] at hthead htlast
  have htne : traceFilter sys.slog cid ≠ [] := by
    intro h0
    rw [h0] at hthead
    exact Option.noConfusion hthead
  constructor
  · intro id hle
    have hne : id ≠ cid := by
      intro he
      subst he
      exact hcidlt hle
    simp only [JobService.getJob]
    rw [getA_setA_ne _ _ hne, getA_setA_ne _ _ hne]
    exact hinv.fresh_absent id hle
  · intro id hle
    have hne : id ≠ cid := by
      intro he
      subst he
      exact hcidlt hle
    simp only [traceOf]
    rw [traceFilter_append, traceFilter_two_ne _ _ hne, List.append_nil]
    have h0 := hinv.fresh_trace id hle
    simpa only [traceOf] using h0
  · intro id jobx hget'
    simp only [traceOf]
    rw [traceFilter_append]
    by_cases he : id = cid
    · subst he
      rw [traceFilter_two_self, List.head?_append_of_ne_nil _ htne]
      exact hthead
    · rw [traceFilter_two_ne _ _ he, List.append_nil]
      simp only [JobService.getJob] at hget'
      rw [getA_setA_ne _ _ he, getA_setA_ne _ _ he] at hget'
      have hh := hinv.trace_head id jobx hget'
      simpa only [traceOf] using hh
  · intro id jobx hget'
    simp only [traceOf]
    rw [traceFilter_append]
    by_cases he : id = cid
    · subst he
      simp only [JobService.getJob] at hget'
      rw [getA_setA_self] at hget'
      have hj : jobx = j2 := by
        injection hget' with h'
        exact h'.symm
      subst hj
      rw [traceFilter_two_self, List.getLast?_append_of_ne_nil _ (by simp), hj2]
      rfl
    · rw [traceFilter_two_ne _ _ he, List.append_nil]
      simp only [JobService.getJob] at hget'
      rw [getA_setA_ne _ _ he, getA_setA_ne _ _ he] at hget'
      have hh := hinv.trace_last id jobx hget'
      simpa only [traceOf] using hh
  · intro id
    simp only [traceOf]
    rw [traceFilter_append]
    by_cases he : id = cid
    · subst he
      rw [traceFilter_two_self, List.chain'_append]
      refine ⟨?_, ?_, ?_⟩
      · have hh := hinv.trace_chain id
        simpa only [traceOf] using hh
      · exact List.chain'_cons.mpr ⟨h2, List.chain'_singleton _⟩
      · intro x hx y hy
        rw [htlast] at hx
        simp only [Option.mem_def, Option.some.injEq] at hx
        simp only [List.head?_cons, Option.mem_def, Option.some.injEq] at hy
        subst hx
        subst hy
        exact h1
    · rw [traceFilter_two_ne _ _ he, List.append_nil]
      have hh := hinv.trace_chain id
      simpa only [traceOf] using hh
  · intro id hnone
    simp only [JobService.getJob] at hnone
    by_cases he : id = cid
    · subst he
      rw [getA_setA_self] at hnone
      exact absurd hnone (by simp)
    · rw [getA_setA_ne _ _ he, getA_setA_ne _ _ he] at hnone
      simp only [traceOf]
      rw [traceFilter_append, traceFilter_two_ne _ _ he, List.append_nil]
      have hh := hinv.trace_absent id hnone
      simpa only [traceOf] using hh
  · intro id j hc
    simp only at hc
    have hc' := cacheGet_del_sub hc
    have hold := hinv.cache_dom id j hc'
    by_cases he : id = cid
    · subst he
      simp only [JobService.getJob]
      rw [getA_setA_self]
      simp
    · simp only [JobService.getJob] at hold ⊢
      rw [getA_setA_ne _ _ he, getA_setA_ne _ _ he]
      exact hold

theorem inv_single_write (sys : Sys) (cid : Nat) (job j1 : OracleJob)
    (c : Nat) (q : List OracleJob) (s1 : JobStatus)
    (hget : JobService.getJob sys.svc cid = some job)
    (hinv : SysInv sys)
    (h1 : succStatus job.status s1 = true)
    (hj1 : j1.status = s1) :
    SysInv { svc := { jobs := setA sys.svc.jobs cid j1
                      nextId := sys.svc.nextId
                      clock := c }
             cache := sys.cache.del cid
             queue := q
             slog := sys.slog ++ [(cid, s1)] } := by
  have hcidlt : ¬ (sys.svc.nextId ≤ cid) := by
    intro hle
    rw [hinv.fresh_absent cid hle] at hget
    exact Option.noConfusion hget
  have hthead := hinv.trace_head cid job hget
  have htlast := hinv.trace_last cid job hget
  simp only [traceOf] at hthead htlast
  have htne : traceFilter sys.slog cid ≠ [] := by
    intro h0
    rw [h0] at hthead
    exact Option.noConfusion hthead
  constructor
  · intro id hle
    have hne : id ≠ cid := by
      intro he
      subst he
      exact hcidlt hle
    simp only [JobService.getJob]
    rw [getA_setA_ne _ _ hne]
    exact hinv.fresh_absent id hle
  · intro id hle
    have hne : id ≠ cid := by
      intro he
      subst he
      exact hcidlt hle
    simp only [traceOf]
    rw [traceFilter_append, traceFilter_one_ne _ hne, List.append_nil]
    have h0 := hinv.fresh_trace id hle
    simpa only [traceOf] using h0
  · intro id jobx hget'
    simp only [traceOf]
    rw [traceFilter_append]
    by_cases he : id = cid
    · subst he
      rw [traceFilter_one_self, List.head?_append_of_ne_nil _ htne]
      exact hthead
    · rw [traceFilter_one_ne _ he, List.append_nil]
      simp only [JobService.getJob] at hget'
      rw [getA_setA_ne _ _ he] at hget'
      have hh := hinv.trace_head id jobx hget'
      simpa only [traceOf] using hh
  · intro id jobx hget'
    simp only [traceOf]
    rw [traceFilter_append]
    by_cases he : id = cid
    · subst he
      simp only [JobService.getJob] at hget'
      rw [getA_setA_self] at hget'
      have hj : jobx = j1 := by
        injection hget' with h'
        exact h'.symm
      subst hj
      rw [traceFilter_one_self, List.getLast?_append_of_ne_nil _ (by simp), hj1]
      rfl
    · rw [traceFilter_one_ne _ he, List.append_nil]
      simp only [JobService.getJob] at hget'
      rw [getA_setA_ne _ _ he] at hget'
      have hh := hinv.trace_last id jobx hget'
      simpa only [traceOf] using hh
  · intro id
    simp only [traceOf]
    rw [traceFilter_append]
    by_cases he : id = cid
    · subst he
      rw [traceFilter_one_self, List.chain'_append]
      refine ⟨?_, List.chain'_singleton _, ?_⟩
      · have hh := hinv.trace_chain id
        simpa only [traceOf] using hh
      · intro x hx y hy
        rw [htlast] at hx
        simp only [Option.mem_def, Option.some.injEq] at hx
        simp only [List.head?_cons, Option.mem_def, Option.some.injEq] at hy
        subst hx
        subst hy
        exact h1
    · rw [traceFilter_one_ne _ he, List.append_nil]
      have hh := hinv.trace_chain id
      simpa only [traceOf] using hh
  · intro id hnone
    simp only [JobService.getJob] at hnone
    by_cases he : id = cid
    · subst he
      rw [getA_setA_self] at hnone
      exact absurd hnone (by simp)
    · rw [getA_setA_ne _ _ he] at hnone
      simp only [traceOf]
      rw [traceFilter_append, traceFilter_one_ne _ he, List.append_nil]
      have hh := hinv.trace_absent id hnone
      simpa only [traceOf] using hh
  · intro id j hc
    simp only at hc
    have hc' := cacheGet_del_sub hc
    have hold := hinv.cache_dom id j hc'
    by_cases he : id = cid
    · subst he
      simp only [JobService.getJob]
      rw [getA_setA_self]
      simp
    · simp only [JobService.getJob] at hold ⊢
      rw [getA_setA_ne _ _ he]
      exact hold

theorem inv_cache_set (sys : Sys) (cid : Nat) (cur : OracleJob) (ttl : Nat)
    (hcur : JobService.getJob sys.svc cid = some cur)
    (hinv : SysInv sys) :
    SysInv { sys with cache := sys.cache.set cid cur ttl } := by
  constructor
  · exact hinv.fresh_absent
  · exact hinv.fresh_trace
  · exact hinv.trace_head
  · exact hinv.trace_last
  · exact hinv.trace_chain
  · exact hinv.trace_absent
  · intro id j hc
    simp only at hc
    by_cases he : id = cid
    · subst he
      rw [hcur]
      simp
    · rw [cacheGet_set_ne _ _ _ he] at hc
      exact hinv.cache_dom id j hc

theorem inv_init : SysInv initSys := by
  constructor
  · intro id hle
    rfl
  · intro id hle
    rfl
  · intro id job hget
    exact Option.noConfusion hget
  · intro id job hget
    exact Option.noConfusion hget
  · intro id
    exact List.chain'_nil
  · intro id hnone
    rfl
  · intro id j hc
    exact Option.noConfusion hc

theorem inv_applyOp (sys : Sys) (op : Op) (hinv : SysInv sys) :
    SysInv (applyOp sys op) := by
  cases op with
  | create ty p =>
      cases hval : validateJobParams ty p with
      | some msg =>
          simpa only [applyOp, createCtrl_invalid hval] using hinv
      | none =>
          simp only [applyOp, createCtrl_valid hval]
          exact inv_create sys (JobService.newJobOf sys.svc ty p) sys.queue
            (sys.svc.clock + 1) hinv rfl
  | confirm cid =>
      rcases hg : JobService.getJob sys.svc cid with _ | job
      · simpa only [applyOp, confirm_absent hg] using hinv
      · by_cases hp : job.status = .pending_payment
        · simp only [applyOp, confirm_pending hg hp]
          exact inv_double_write sys cid job _ _ _ _ .payment_confirmed .query_in_progress
            hg hinv (by rw [hp]; decide) rfl rfl
        · simpa only [applyOp, confirm_nonpending hg hp] using hinv
  | fetch cfg v fid hdr =>
      rcases hA : fetchPhaseA sys fid hdr with _ | jid | snap | _
      · simpa only [applyOp, getJobCtrl, hA] using hinv
      · simpa only [applyOp, getJobCtrl, hA] using hinv
      · obtain ⟨hg, hp⟩ := phaseA_toVerify_inv hA
        rcases hv : v.verified with _ | _
        · simp only [applyOp, getJobCtrl, hA]
          rw [fetchVerify_rejected snap hv]
          exact hinv
        · simp only [applyOp, getJobCtrl, hA,
            fetchVerify_success cfg snap hg hv]
          exact inv_double_write sys fid snap _ _ _ _ .payment_confirmed .query_in_progress
            hg hinv (by rw [hp]; decide) rfl rfl
      · simp only [applyOp, getJobCtrl, hA]
        rcases hc : sys.cache.get fid with _ | cget
        · rcases hj : JobService.getJob sys.svc fid with _ | cur
          · rw [readPhase_miss_absent hc hj]
            exact hinv
          · rw [readPhase_miss_present hc hj]
            exact inv_cache_set sys fid cur 60 hj hinv
        · rw [readPhase_hit hc]
          exact hinv
  | listQuery a b c d =>
      simpa only [applyOp] using hinv
  | complete cid outcome =>
      rcases hg : JobService.getJob sys.svc cid with _ | job
      · simpa only [applyOp, worker_absent _ hg] using hinv
      · by_cases hp : job.status = .query_in_progress
        · simp only [applyOp, worker_progress _ hg hp]
          cases outcome with
          | success payload =>
              exact inv_single_write sys cid job _ _ _ .completed hg hinv (by rw [hp]; decide) rfl
          | failure err =>
              exact inv_single_write sys cid job _ _ _ .failed hg hinv (by rw [hp]; decide) rfl
        · simpa only [applyOp, worker_nonprogress _ hg hp] using hinv

theorem inv_runAux (sys : Sys) (ops : List Op) (hinv : SysInv sys) :
    SysInv (runOps sys ops) := by
  induction ops generalizing sys with
  | nil => exact hinv
  | cons op rest ih => exact ih (applyOp sys op) (inv_applyOp sys op hinv)

theorem inv_run (ops : List Op) : SysInv (runOps initSys ops) :=
  inv_runAux initSys ops inv_init

/-- C3: over any sequence of operations from the empty system — creation,
legacy confirm, Fetch with any header and verifier verdict, list, and the
spec-modelled worker completion — the sequence of status values each job
holds (its status-write trace, starting with the pending_payment written at
creation) begins at pending_payment whenever it is nonempty and follows the
immediate-successor relation of the chain pending_payment, payment_confirmed,
query_in_progress, then completed or failed: no step is skipped, no
transition regresses, and since the terminal states have no successor in the
relation, completed and failed are never left. -/
theorem c3_lifecycle_chain (ops : List Op) (id : Nat) :
    ((statusTrace ops id).head? = none ∨
      (statusTrace ops id).head? = some .pending_payment) ∧
    List.Chain' (fun a b => succStatus a b = true) (statusTrace ops id) := by
  have hinv := inv_run ops
  constructor
  · rcases hg : JobService.getJob (runOps initSys ops).svc id with _ | job
    · left
      simp only [statusTrace]
      rw [hinv.trace_absent id hg]
      rfl
    · right
      exact hinv.trace_head id job hg
  · exact hinv.trace_chain id

theorem applyOp_mutation_cache (sys : Sys) (op : Op) (id : Nat) (hinv : SysInv sys)
    (hchg : JobService.getJob (applyOp sys op).svc id ≠ JobService.getJob sys.svc id) :
    (applyOp sys op).cache.get id = none := by
  cases op with
  | create ty p =>
      cases hval : validateJobParams ty p with
      | some msg =>
          simp only [applyOp, createCtrl_invalid hval] at hchg
          exact absurd rfl hchg
      | none =>
          simp only [applyOp, createCtrl_valid hval] at hchg ⊢
          by_cases he : id = sys.svc.nextId
          · subst he
            rcases hcv : sys.cache.get sys.svc.nextId with _ | j
            · rfl
            · have hdom := hinv.cache_dom _ j hcv
              rw [hinv.fresh_absent _ le_rfl] at hdom
              exact absurd rfl hdom
          · simp only [JobService.getJob] at hchg
            rw [getA_setA_ne _ _ he] at hchg
            exact absurd rfl hchg
  | confirm cid =>
      rcases hg : JobService.getJob sys.svc cid with _ | job
      · simp only [applyOp, confirm_absent hg] at hchg
        exact absurd rfl hchg
      · by_cases hp : job.status = .pending_payment
        · simp only [applyOp, confirm_pending hg hp] at hchg ⊢
          by_cases he : id = cid
          · subst he
            exact cacheGet_del_self _ _
          · simp only [JobService.getJob] at hchg
            rw [getA_setA_ne _ _ he, getA_setA_ne _ _ he] at hchg
            exact absurd rfl hchg
        · simp only [applyOp, confirm_nonpending hg hp] at hchg
          exact absurd rfl hchg
  | fetch cfg v fid hdr =>
      rcases hA : fetchPhaseA sys fid hdr with _ | jid | snap | _
      · simp only [applyOp, getJobCtrl, hA] at hchg
        exact absurd rfl hchg
      · simp only [applyOp, getJobCtrl, hA] at hchg
        exact absurd rfl hchg
      · obtain ⟨hg, hp⟩ := phaseA_toVerify_inv hA
        rcases hv : v.verified with _ | _
        · simp only [applyOp, getJobCtrl, hA, fetchVerify_rejected snap hv] at hchg
          exact absurd rfl hchg
        · simp only [applyOp, getJobCtrl, hA,
            fetchVerify_success cfg snap hg hv] at hchg ⊢
          by_cases he : id = fid
          · subst he
            exact cacheGet_del_self _ _
          · simp only [JobService.getJob] at hchg
            rw [getA_setA_ne _ _ he, getA_setA_ne _ _ he] at hchg
            exact absurd rfl hchg
      · simp only [applyOp, getJobCtrl, hA] at hchg ⊢
        rcases hc : sys.cache.get fid with _ | cg
        · rcases hj : JobService.getJob sys.svc fid with _ | cur
          · rw [readPhase_miss_absent hc hj] at hchg
            exact absurd rfl hchg
          · rw [readPhase_miss_present hc hj] at hchg
            exact absurd rfl hchg
        · rw [readPhase_hit hc] at hchg
          exact absurd rfl hchg
  | listQuery a b c d =>
      simp only [applyOp] at hchg
      exact absurd rfl hchg
  | complete cid outcome =>
      rcases hg : JobService.getJob sys.svc cid with _ | job
      · simp only [applyOp, worker_absent _ hg] at hchg
        exact absurd rfl hchg
      · by_cases hp : job.status = .query_in_progress
        · simp only [applyOp, worker_progress _ hg hp] at hchg ⊢
          by_cases he : id = cid
          · subst he
            exact cacheGet_del_self _ _
          · simp only [JobService.getJob] at hchg
            rw [getA_setA_ne _ _ he] at hchg
            exact absurd rfl hchg
        · simp only [applyOp, worker_nonprogress _ hg hp] at hchg
          exact absurd rfl hchg

/-- C4: after any operation that changes the stored job X (creation, either
confirmation path, or the spec-modelled worker completion), the cache holds no
entry for X — every mutating control flow deletes the entry synchronously
before returning, and a fresh id is never cached — so the next Fetch of X
cannot serve the pre-mutation snapshot: it misses the cache, reads the store,
and returns exactly the current stored job (populating the cache only with
that post-mutation snapshot). -/
theorem c4_cache_invalidated_on_mutation (ops : List Op) (op : Op) (id : Nat)
    (hchg : JobService.getJob (applyOp (runOps initSys ops) op).svc id ≠
      JobService.getJob (runOps initSys ops).svc id) :
    (applyOp (runOps initSys ops) op).cache.get id = none ∧
    (∀ cfg v hdr j,
      JobService.getJob (applyOp (runOps initSys ops) op).svc id = some j →
      j.status ≠ .pending_payment →
      getJobCtrl cfg v (applyOp (runOps initSys ops) op) id hdr =
        (.snapshot (some j),
          { applyOp (runOps initSys ops) op with
            cache := (applyOp (runOps initSys ops) op).cache.set id j 60 })) := by
  have hinv := inv_run ops
  have hcache := applyOp_mutation_cache (runOps initSys ops) op id hinv hchg
  refine ⟨hcache, ?_⟩
  intro cfg v hdr j hj hnp
  exact fetch_after_nonpending cfg v hdr hcache hj hnp

/-- Witness for C4: confirming the pending job mutates it; afterwards the
cache has no entry for it and a Fetch returns the stored in-progress job. -/
theorem c4_witness :
    (applyOp sysOnePending (.confirm 0)).cache.get 0 = none ∧
    getJobCtrl demoCfg okVerdict (applyOp sysOnePending (.confirm 0)) 0 none =
      (.snapshot (some job0q),
        { applyOp sysOnePending (.confirm 0) with
          cache := (applyOp sysOnePending (.confirm 0)).cache.set 0 job0q 60 }) := by
  have h := c4_cache_invalidated_on_mutation [.create .random pRandom] (.confirm 0) 0
    (by decide)
  exact ⟨h.1, h.2 demoCfg okVerdict none job0q (by decide) (by decide)⟩
